import Mathlib

/-!
Shallow embedding, over exact rational arithmetic, of the statistical core
of the repository: the scripts generate_continuous.py, generate_survival.py,
add_realism.py and validate_statistics.py of the virtual research data
generator. Library transcendental functions (np.sqrt, np.log, np.exp, the
scipy normal cdf, the raw pseudo-random draw streams of numpy) are
abstracted as explicit function parameters, and numpy float paths that
produce NaN or raise are modelled with Option.
-/

/-- Arithmetic mean of a list of rationals (np.mean). Division by zero
gives 0 for the empty list, a case no theorem below relies on. -/
def qmean (xs : List ℚ) : ℚ := xs.sum / xs.length

/-- Population variance with ddof = 0 (the np.var default). -/
def popVar (xs : List ℚ) : ℚ :=
  ((xs.map fun x => (x - qmean xs) ^ 2).sum) / xs.length

/-- Sample variance with ddof = 1, as in np.var(xs, ddof=1); numpy yields
NaN for fewer than two observations, modelled as none. -/
def sampleVar (xs : List ℚ) : Option ℚ :=
  if xs.length < 2 then none
  else some (((xs.map fun x => (x - qmean xs) ^ 2).sum) / ((xs.length : ℚ) - 1))

/-- Abstract model of the deterministic value streams behind the
process-wide numpy pseudo-random generator, together with the
transcendental library functions the samplers call. val and uval give the
normal and uniform unit draw values at a given global state index; each
draw advances the state by one. -/
structure RandModel where
  val : ℕ → ℚ
  uval : ℕ → ℚ
  expW : ℚ → ℚ
  logW : ℚ → ℚ
  sqrtW : ℚ → ℚ
  skewDraw : ℚ → ℕ → ℚ

/-- State of the process-wide numpy generator right after np.random.seed s:
a function of the seed alone. -/
def mtInit (s : ℕ) : ℕ := s

/-- Model of np.random.seed: it overwrites the shared global generator
state, discarding whatever state was there before. -/
def npSeed (s : ℕ) (_σ : ℕ) : ℕ := mtInit s

/-- Model of the generator constructors (ContinuousVariableGenerator,
SurvivalDataGenerator, RealismEnhancer __init__): when a seed is given the
global numpy state is reseeded, otherwise it is left untouched. -/
def generatorInit (seed? : Option ℕ) (σ : ℕ) : ℕ :=
  match seed? with
  | some s => npSeed s σ
  | none => σ

/-- Model of np.random.normal(mean, std, n) from global state σ: n draws,
the i-th being mean + std times the unit normal value at state σ + i;
the state advances by n. -/
def npNormalDraws (M : RandModel) (mean std : ℚ) (n σ : ℕ) : List ℚ × ℕ :=
  ((List.range n).map fun i => mean + std * M.val (σ + i), σ + n)

/-- ContinuousVariableGenerator._truncate: clip below to min_val when
given, then above to max_val when given. -/
def truncateData (data : List ℚ) (minVal maxVal : Option ℚ) : List ℚ :=
  let r1 := match minVal with
    | some m => data.map fun x => max x m
    | none => data
  match maxVal with
  | some m => r1.map fun x => min x m
  | none => r1

/-- ContinuousVariableGenerator.generate_normal. -/
def generateNormal (M : RandModel) (n : ℕ) (mean std : ℚ)
    (minVal maxVal : Option ℚ) (σ : ℕ) : List ℚ × ℕ :=
  let r := npNormalDraws M mean std n σ
  (if minVal.isSome || maxVal.isSome then truncateData r.1 minVal maxVal else r.1,
   r.2)

/-- ContinuousVariableGenerator._lognormal_params: convert a target
original-scale mean and std into log-scale mu and sigma. -/
def lognormalParams (M : RandModel) (mean std : ℚ) : ℚ × ℚ :=
  let var := std ^ 2
  (M.logW (mean ^ 2 / M.sqrtW (var + mean ^ 2)),
   M.sqrtW (M.logW (1 + var / mean ^ 2)))

/-- ContinuousVariableGenerator.generate_lognormal: np.random.lognormal
draws are the exponential of normal draws at the log-scale parameters. -/
def generateLognormal (M : RandModel) (n : ℕ) (mean std : ℚ)
    (minVal maxVal : Option ℚ) (σ : ℕ) : List ℚ × ℕ :=
  let p := lognormalParams M mean std
  let raw := (List.range n).map fun i => M.expW (p.1 + p.2 * M.val (σ + i))
  (if minVal.isSome || maxVal.isSome then truncateData raw minVal maxVal else raw,
   σ + n)

/-- ContinuousVariableGenerator.generate_skewed: skewnorm draws with shape
skewness * 5, re-standardised to the requested sample mean and std. -/
def generateSkewed (M : RandModel) (n : ℕ) (mean std skewness : ℚ)
    (minVal maxVal : Option ℚ) (σ : ℕ) : List ℚ × ℕ :=
  let a := skewness * 5
  let raw := (List.range n).map fun i => M.skewDraw a (σ + i)
  let standardized :=
    raw.map fun x => (x - qmean raw) / M.sqrtW (popVar raw) * std + mean
  (if minVal.isSome || maxVal.isSome then
      truncateData standardized minVal maxVal
    else standardized,
   σ + n)

/-- ContinuousVariableGenerator.generate_uniform: np.random.uniform draws
low + (high - low) times the unit uniform value. -/
def generateUniform (M : RandModel) (n : ℕ) (low high : ℚ) (σ : ℕ) :
    List ℚ × ℕ :=
  ((List.range n).map fun i => low + (high - low) * M.uval (σ + i), σ + n)

/-- Convenience function generate_continuous_variable: construct a
generator with the given seed (reseeding the global numpy state when the
seed is not None) and dispatch on the distribution name; an unknown name
raises ValueError, modelled as none. -/
def generateContinuousVariable (M : RandModel) (n : ℕ) (distribution : String)
    (mean std : ℚ) (minVal maxVal : Option ℚ) (skewness : ℚ)
    (randomSeed : Option ℕ) (low? high? : Option ℚ) (σ : ℕ) :
    Option (List ℚ) × ℕ :=
  let σ1 := generatorInit randomSeed σ
  if distribution = "normal" then
    let r := generateNormal M n mean std minVal maxVal σ1
    (some r.1, r.2)
  else if distribution = "lognormal" then
    let r := generateLognormal M n mean std minVal maxVal σ1
    (some r.1, r.2)
  else if distribution = "skewed" then
    let r := generateSkewed M n mean std skewness minVal maxVal σ1
    (some r.1, r.2)
  else if distribution = "uniform" then
    let low := low?.getD (mean - std * M.sqrtW 3)
    let high := high?.getD (mean + std * M.sqrtW 3)
    let r := generateUniform M n low high σ1
    (some r.1, r.2)
  else (none, σ1)

/-- Concrete instantiation of the abstract draw streams in which the draw
value equals the global state index; it witnesses that distinct global
states yield distinct draws, as the real Mersenne Twister streams do for
distinct seeds. -/
def idModel : RandModel :=
  ⟨fun σ => (σ : ℚ), fun σ => (σ : ℚ), id, id, id, fun _ σ => (σ : ℚ)⟩

/-- np.round rounds halves to even; on rationals. -/
def npRoundHalfEven (x : ℚ) : ℤ :=
  let f := ⌊x⌋
  let r := x - f
  if r < 1 / 2 then f
  else if 1 / 2 < r then f + 1
  else if 2 ∣ f then f else f + 1

/-- RealismEnhancer.round_to_precision: round, floor or ceil of the data
divided by the precision, multiplied back by the precision; an unknown
method raises ValueError, modelled as none. -/
def roundToPrecision (data : List ℚ) (precision : ℚ) (method : String) :
    Option (List ℚ) :=
  if method = "round" then
    some (data.map fun x => ((npRoundHalfEven (x / precision) : ℚ) * precision))
  else if method = "floor" then
    some (data.map fun x => ((⌊x / precision⌋ : ℚ) * precision))
  else if method = "ceil" then
    some (data.map fun x => ((⌈x / precision⌉ : ℚ) * precision))
  else none

/-- RealismEnhancer.enforce_range: np.maximum with min_val when given,
then np.minimum with max_val when given. -/
def enforceRange (data : List ℚ) (minVal maxVal : Option ℚ) : List ℚ :=
  let r1 := match minVal with
    | some m => data.map fun x => max x m
    | none => data
  match maxVal with
  | some m => r1.map fun x => min x m
  | none => r1

/-- Boolean indexing values[~dropout_mask]: entries of vs retained at the
positions where the dropout mask is false. -/
def applyRetain (vs : List ℚ) (mask : List Bool) : List ℚ :=
  (vs.zip mask).filterMap fun p => if p.2 then none else some p.1

/-- RealismEnhancer.add_dropout over an ordered association list standing
for the python dict: the dropout mask is one uniform draw per row compared
with the dropout rate, identically for both the random and the related
mechanism; an unknown mechanism raises ValueError, modelled as none. The
empty dict, on which the source raises IndexError before reaching either
mechanism branch, is modelled with n = 0. -/
def addDropout (data : List (String × List ℚ)) (dropoutRate : ℚ)
    (dropoutMechanism : String) (us : ℕ → ℚ) :
    Option (List (String × List ℚ) × List Bool) :=
  let n := match data with
    | [] => 0
    | kv :: _ => kv.2.length
  let mask? : Option (List Bool) :=
    if dropoutMechanism = "random" then
      some ((List.range n).map fun i => decide (us i < dropoutRate))
    else if dropoutMechanism = "related" then
      some ((List.range n).map fun i => decide (us i < dropoutRate))
    else none
  mask?.map fun mask =>
    (data.map fun kv => (kv.1, applyRetain kv.2 mask), mask)

/-- One clamp applied twice equals one clamp, pointwise. -/
lemma clamp_idem (x m M : ℚ) :
    min (max (min (max x m) M) m) M = min (max x m) M := by
  rcases le_total x m with h1 | h1 <;> rcases le_total m M with h2 | h2 <;>
    simp [max_def, min_def] <;> split_ifs <;> linarith

/-- C1: for every seed s, constructing a generator with random_seed = s
and calling generate_continuous_variable with identical arguments yields
bit-identical output arrays across the two runs, whatever the global
generator state was beforehand: seeding overwrites the shared state, so
the output is a function of the seed and the arguments alone. -/
theorem c1_same_seed_runs_identical (M : RandModel) (n : ℕ)
    (distribution : String) (mean std skewness : ℚ)
    (minVal maxVal low? high? : Option ℚ) (s : ℕ) (σ σ' : ℕ) :
    (generateContinuousVariable M n distribution mean std minVal maxVal
        skewness (some s) low? high? σ).1
      = (generateContinuousVariable M n distribution mean std minVal maxVal
        skewness (some s) low? high? σ').1 := rfl

/-- C6: round_to_precision on [1.24, 1.26] with precision 0.1 gives
[1.2, 1.3] for the round method and [1.2, 1.2] for the floor method, in
the exact arithmetic of the implementation formula. -/
theorem c6_round_to_precision_example :
    roundToPrecision [31 / 25, 63 / 50] (1 / 10) "round" = some [6 / 5, 13 / 10]
      ∧ roundToPrecision [31 / 25, 63 / 50] (1 / 10) "floor" = some [6 / 5, 6 / 5] := by
  have h1 : (⌊(62 / 5 : ℚ)⌋ : ℤ) = 12 := by norm_num
  have h2 : (⌊(63 / 5 : ℚ)⌋ : ℤ) = 12 := by norm_num
  have hf1 : Int.fract (62 / 5 : ℚ) = 2 / 5 := by rw [Int.fract, h1]; norm_num
  have hf2 : Int.fract (63 / 5 : ℚ) = 3 / 5 := by rw [Int.fract, h2]; norm_num
  constructor <;> norm_num [roundToPrecision, npRoundHalfEven, h1, h2, hf1, hf2]
  decide

/-- C7 counterexample: generator instances do share random-generator
state. Instance A is constructed with seed 0 from global state 42; if
instance B is constructed (seeded with 1) between the construction of A
and the call to A.generate_normal, the output of that call changes, so
the outputs of one instance are not unchanged by constructing the other
in between. -/
theorem c7_instances_share_state_counterexample :
    (generateNormal idModel 1 0 1 none none (npSeed 1 (npSeed 0 42))).1
      ≠ (generateNormal idModel 1 0 1 none none (npSeed 0 42)).1 := by
  simp [generateNormal, npNormalDraws, idModel, npSeed, mtInit]

/-- C7 amended: the generator instances all act on the one process-wide
numpy generator state; what holds is that seeding overwrites that shared
state, so an instance constructed with seed s and then called immediately
produces output independent of anything done before its construction,
while random activity interleaved between construction and call does
change the output. -/
theorem c7_seed_overwrites_shared_state (M : RandModel) (n : ℕ)
    (mean std : ℚ) (minVal maxVal : Option ℚ) (s : ℕ) (σ σ' : ℕ) :
    (generateNormal M n mean std minVal maxVal (npSeed s σ)).1
      = (generateNormal M n mean std minVal maxVal (npSeed s σ')).1 := rfl

/-- C8: for every data dict, dropout rate and identical random-generator
state, add_dropout with the related mechanism returns exactly the same
filtered dict and dropout mask as with the random mechanism. -/
theorem c8_dropout_related_equals_random (data : List (String × List ℚ))
    (dropoutRate : ℚ) (us : ℕ → ℚ) :
    addDropout data dropoutRate "related" us
      = addDropout data dropoutRate "random" us := rfl

/-- C9: enforce_range is idempotent for every numeric array and every
bounds pair, optional bounds included. -/
theorem c9_enforce_range_idempotent (data : List ℚ) (minVal maxVal : Option ℚ) :
    enforceRange (enforceRange data minVal maxVal) minVal maxVal
      = enforceRange data minVal maxVal := by
  cases minVal with
  | none =>
    cases maxVal with
    | none => rfl
    | some M =>
      simp only [enforceRange, List.map_map]
      exact List.map_congr_left fun a _ => by simp [min_assoc]
  | some m =>
    cases maxVal with
    | none =>
      simp only [enforceRange, List.map_map]
      exact List.map_congr_left fun a _ => by simp [max_assoc]
    | some M =>
      simp only [enforceRange, List.map_map]
      exact List.map_congr_left fun a _ => clamp_idem a m M

/-- Subset data[group == g]: entries of data at positions where the
parallel group array equals g. -/
def selGroup (data group : List ℚ) (g : ℚ) : List ℚ :=
  (data.zip group).filterMap fun p => if p.2 = g then some p.1 else none

/-- Subset data[~(group == g)]: entries of data at positions where the
parallel group array differs from g. -/
def selNotGroup (data group : List ℚ) (g : ℚ) : List ℚ :=
  (data.zip group).filterMap fun p => if p.2 = g then none else some p.1

/-- ContinuousVariableGenerator._calculate_cohens_d: difference of the
group means over the pooled ddof-1 standard deviation. rsqrt stands for
np.sqrt; a group with fewer than two observations or a zero pooled
standard deviation makes the float computation produce NaN or an
infinity, modelled as none. -/
def calculateCohensD (rsqrt : ℚ → ℚ) (data group : List ℚ) : Option ℚ :=
  let g0 := selGroup data group 0
  let g1 := selGroup data group 1
  match sampleVar g0, sampleVar g1 with
  | some v0, some v1 =>
    let n0 : ℚ := g0.length
    let n1 : ℚ := g1.length
    let pooledStd := rsqrt (((n0 - 1) * v0 + (n1 - 1) * v1) / (n0 + n1 - 2))
    if pooledStd = 0 then none
    else some ((qmean g1 - qmean g0) / pooledStd)
  | _, _ => none

/-- Core of ContinuousVariableGenerator.adjust_effect_size once the
current effect size c is at hand: return data unchanged when c is 0,
otherwise shift the group-1 entries so that the between-group mean
difference is scaled by target / c. The source also computes a pooled_std
local that it never uses; it is omitted. -/
def adjustStep (data group : List ℚ) (targetD c : ℚ) : List ℚ :=
  if c = 0 then data
  else
    let factor := targetD / c
    let meanDiff := qmean (selGroup data group 1) - qmean (selNotGroup data group 1)
    let newMeanDiff := meanDiff * factor
    List.zipWith (fun x g => if g = 1 then x - meanDiff + newMeanDiff else x)
      data group

/-- ContinuousVariableGenerator.adjust_effect_size: the current effect
size is the given one when supplied, else Cohen's d computed from the
data; none models the NaN-poisoned float path where that computation is
undefined. -/
def adjustEffectSize (rsqrt : ℚ → ℚ) (data group : List ℚ) (targetD : ℚ)
    (currentD? : Option ℚ) : Option (List ℚ) :=
  match currentD? with
  | some c => some (adjustStep data group targetD c)
  | none => (calculateCohensD rsqrt data group).map (adjustStep data group targetD)

/-- Element lookup through zipWith. -/
lemma zipWith_getElem? (f : ℚ → ℚ → ℚ) (as bs : List ℚ) (i : ℕ) (a b : ℚ)
    (ha : as[i]? = some a) (hb : bs[i]? = some b) :
    (List.zipWith f as bs)[i]? = some (f a b) := by
  rw [List.getElem?_zipWith_eq_some]
  exact ⟨a, b, ha, hb, rfl⟩

/-- C3: adjust_effect_size with current effect size 0 — whether supplied
by the caller or computed from the data — returns the input data array
unchanged; no division by zero is reached since the zero test exits
before the adjustment factor is formed. -/
theorem c3_zero_effect_returns_data_unchanged (rsqrt : ℚ → ℚ)
    (data group : List ℚ) (targetD : ℚ) (currentD? : Option ℚ)
    (h : currentD? = some 0
      ∨ (currentD? = none ∧ calculateCohensD rsqrt data group = some 0)) :
    adjustEffectSize rsqrt data group targetD currentD? = some data := by
  rcases h with h | ⟨h1, h2⟩
  · subst h
    simp [adjustEffectSize, adjustStep]
  · subst h1
    simp [adjustEffectSize, h2, adjustStep]

/-- Witness for C3 at a concrete input: the computed Cohen's d of the
data [1, 2, 1, 2] with groups [0, 0, 1, 1] is 0, and the adjustment
returns the data unchanged. -/
theorem c3_zero_effect_witness :
    ((none : Option ℚ) = some 0
      ∨ ((none : Option ℚ) = none
          ∧ calculateCohensD id [1, 2, 1, 2] [0, 0, 1, 1] = some 0))
    ∧ adjustEffectSize id [1, 2, 1, 2] [0, 0, 1, 1] 5 none = some [1, 2, 1, 2] := by
  have hs0 : selGroup [(1 : ℚ), 2, 1, 2] [0, 0, 1, 1] 0 = [1, 2] := by
    norm_num [selGroup, List.zip_cons_cons, List.filterMap_cons]
  have hs1 : selGroup [(1 : ℚ), 2, 1, 2] [0, 0, 1, 1] 1 = [1, 2] := by
    norm_num [selGroup, List.zip_cons_cons, List.filterMap_cons]
  have hv : sampleVar [(1 : ℚ), 2] = some (1 / 2) := by
    norm_num [sampleVar, qmean]
  have h : calculateCohensD id [(1 : ℚ), 2, 1, 2] [0, 0, 1, 1] = some 0 := by
    rw [calculateCohensD, hs0, hs1, hv]
    norm_num [qmean]
  exact ⟨Or.inr ⟨rfl, h⟩,
    c3_zero_effect_returns_data_unchanged id [1, 2, 1, 2] [0, 0, 1, 1] 5 none
      (Or.inr ⟨rfl, h⟩)⟩

/-- C4: with a nonzero current effect size, adjust_effect_size changes at
most the group-1 entries: every entry whose group value differs from 1 is
returned unchanged, and a group-1 entry x becomes
x - meanDiff + meanDiff * (target / c), the constant shift that rescales
the between-group mean difference by target / c. -/
theorem c4_frame_group1_only (rsqrt : ℚ → ℚ) (data group : List ℚ)
    (targetD c : ℚ) (currentD? : Option ℚ) (out : List ℚ)
    (hc : c ≠ 0)
    (hcur : currentD? = some c
      ∨ (currentD? = none ∧ calculateCohensD rsqrt data group = some c))
    (hout : adjustEffectSize rsqrt data group targetD currentD? = some out) :
    ∀ (i : ℕ) (x g : ℚ), data[i]? = some x → group[i]? = some g →
      out[i]? = some (if g = 1 then
          x - (qmean (selGroup data group 1) - qmean (selNotGroup data group 1))
            + (qmean (selGroup data group 1) - qmean (selNotGroup data group 1))
              * (targetD / c)
        else x) := by
  have hstep : out = adjustStep data group targetD c := by
    rcases hcur with h | ⟨h1, h2⟩
    · subst h
      simpa [adjustEffectSize] using hout.symm
    · subst h1
      rw [adjustEffectSize] at hout
      rw [h2] at hout
      simpa using hout.symm
  subst hstep
  intro i x g hx hg
  unfold adjustStep
  rw [if_neg hc]
  exact zipWith_getElem? _ data group i x g hx hg

/-- Witness for C4 at a concrete input: data [0, 1, 2, 3], groups
[0, 1, 0, 1], supplied current effect size 2 and target 4; the entry at
index 0 has group 0 and is returned unchanged. -/
theorem c4_frame_witness :
    (2 : ℚ) ≠ 0 ∧ (adjustStep [0, 1, 2, 3] [0, 1, 0, 1] 4 2)[0]? = some 0 := by
  refine ⟨by norm_num, ?_⟩
  have h := c4_frame_group1_only id [0, 1, 2, 3] [0, 1, 0, 1] 4 2 (some 2)
    (adjustStep [0, 1, 2, 3] [0, 1, 0, 1] 4 2) (by norm_num) (Or.inl rfl) rfl
    0 0 0 rfl rfl
  norm_num at h
  exact h

/-- Trimmed ValidationResult record for validate_odds_ratio: the passed
flag, the p value (None when some cell of the table is empty) and the
realized odds value, where none stands for the float infinity produced
when b * c = 0 while a * d > 0. The confidence interval and message
fields of the source record are referenced by no claim and are omitted. -/
structure OrResult where
  passed : Bool
  pValue : Option ℚ
  actualOr : Option ℚ

/-- StatisticalValidator._check_value: absolute comparison strictly below
the tolerance when the expected value is 0, relative error at most the
tolerance otherwise. -/
def checkValue (tolerance actual expected : ℚ) : Bool :=
  if expected = 0 then decide (|actual| < tolerance)
  else decide (|actual - expected| / |expected| ≤ tolerance)

/-- Cells of the 2x2 table of validate_odds_ratio: a counts exposed
cases, b exposed non-cases, c unexposed cases, d unexposed non-cases. -/
def tableCounts (outcome exposure : List ℤ) : ℕ × ℕ × ℕ × ℕ :=
  let rows := exposure.zip outcome
  (rows.countP fun r => decide (r.1 = 1 ∧ r.2 = 1),
   rows.countP fun r => decide (r.1 = 1 ∧ r.2 = 0),
   rows.countP fun r => decide (r.1 = 0 ∧ r.2 = 1),
   rows.countP fun r => decide (r.1 = 0 ∧ r.2 = 0))

/-- Realized odds value from the four cells: a float infinity (none) or 0
when b or c is empty, the cross ratio a d / (b c) otherwise. -/
def actualOrCells (a b c d : ℕ) : Option ℚ :=
  if b = 0 ∨ c = 0 then (if 0 < a * d then none else some 0)
  else some (((a * d : ℕ) : ℚ) / ((b * c : ℕ) : ℚ))

/-- The p value of the z test on the log odds: computed only when every
cell is positive; pv abstracts the transcendental formula
2 (1 - cdf |log or / se|) that the source evaluates with np.log, np.sqrt
and the scipy normal cdf. -/
def pValueCells (pv : ℕ → ℕ → ℕ → ℕ → ℚ) (a b c d : ℕ) : Option ℚ :=
  if 0 < a ∧ 0 < b ∧ 0 < c ∧ 0 < d then some (pv a b c d) else none

/-- Effect magnitude check of validate_odds_ratio: _check_value applied
to the realized odds value, false on the infinity encoding. -/
def orOkCells (tolerance expectedOr : ℚ) (a b c d : ℕ) : Bool :=
  match actualOrCells a b c d with
  | none => false
  | some x => checkValue tolerance x expectedOr

/-- Significance check of validate_odds_ratio: matches the expected
significance flag when the p value is defined, false when it is None. -/
def sigOkCells (alpha : ℚ) (expSig : Bool) (pv : ℕ → ℕ → ℕ → ℕ → ℚ)
    (a b c d : ℕ) : Bool :=
  match pValueCells pv a b c d with
  | some p => if expSig then decide (p < alpha) else decide (alpha ≤ p)
  | none => false

/-- StatisticalValidator.validate_odds_ratio assembled from the cell
counts of the 2x2 table. -/
def validateOdds (tolerance alpha expectedOr : ℚ) (expSig : Bool)
    (pv : ℕ → ℕ → ℕ → ℕ → ℚ) (outcome exposure : List ℤ) : OrResult :=
  let t := tableCounts outcome exposure
  ⟨orOkCells tolerance expectedOr t.1 t.2.1 t.2.2.1 t.2.2.2
     && sigOkCells alpha expSig pv t.1 t.2.1 t.2.2.1 t.2.2.2,
   pValueCells pv t.1 t.2.1 t.2.2.1 t.2.2.2,
   actualOrCells t.1 t.2.1 t.2.2.1 t.2.2.2⟩

/-- The magnitude check holds exactly when the realized odds value is
finite with relative error within tolerance, for a nonzero expectation. -/
lemma orOkCells_iff (tolerance expectedOr : ℚ) (a b c d : ℕ)
    (hne : expectedOr ≠ 0) :
    orOkCells tolerance expectedOr a b c d = true
      ↔ ∃ q, actualOrCells a b c d = some q
          ∧ |q - expectedOr| / |expectedOr| ≤ tolerance := by
  unfold orOkCells actualOrCells checkValue
  split_ifs <;> simp [hne]

/-- The significance check holds exactly when the p value is defined and
matches the expected significance flag. -/
lemma sigOkCells_iff (alpha : ℚ) (expSig : Bool)
    (pv : ℕ → ℕ → ℕ → ℕ → ℚ) (a b c d : ℕ) :
    sigOkCells alpha expSig pv a b c d = true
      ↔ ∃ p, pValueCells pv a b c d = some p
          ∧ if expSig then p < alpha else alpha ≤ p := by
  unfold sigOkCells pValueCells
  split_ifs <;> cases expSig <;> simp

/-- An empty cell makes the p value None. -/
lemma pValueCells_none (pv : ℕ → ℕ → ℕ → ℕ → ℚ) (a b c d : ℕ)
    (h : a = 0 ∨ b = 0 ∨ c = 0 ∨ d = 0) :
    pValueCells pv a b c d = none := by
  unfold pValueCells
  rw [if_neg]
  omega

/-- C2: with a nonzero expected odds value, validate_odds_ratio passes if
and only if the realized 2x2-table odds value is defined with relative
error at most the tolerance and the p value is defined and matches the
expected significance flag (p < alpha when significance is expected, p
at least alpha when not); and whenever some cell of the table is zero the
returned p value is None and the result is a non-pass. -/
theorem c2_validate_odds_pass_criterion (tolerance alpha expectedOr : ℚ)
    (expSig : Bool) (pv : ℕ → ℕ → ℕ → ℕ → ℚ) (outcome exposure : List ℤ)
    (hne : expectedOr ≠ 0) :
    ((validateOdds tolerance alpha expectedOr expSig pv outcome exposure).passed = true
      ↔ ((∃ q, (validateOdds tolerance alpha expectedOr expSig pv outcome exposure).actualOr
              = some q ∧ |q - expectedOr| / |expectedOr| ≤ tolerance)
        ∧ (∃ p, (validateOdds tolerance alpha expectedOr expSig pv outcome exposure).pValue
              = some p ∧ if expSig then p < alpha else alpha ≤ p)))
    ∧ (((tableCounts outcome exposure).1 = 0 ∨ (tableCounts outcome exposure).2.1 = 0
        ∨ (tableCounts outcome exposure).2.2.1 = 0 ∨ (tableCounts outcome exposure).2.2.2 = 0)
      → (validateOdds tolerance alpha expectedOr expSig pv outcome exposure).pValue = none
        ∧ (validateOdds tolerance alpha expectedOr expSig pv outcome exposure).passed = false) := by
  constructor
  · show (_ && _) = true ↔ _
    rw [Bool.and_eq_true,
      orOkCells_iff tolerance expectedOr _ _ _ _ hne,
      sigOkCells_iff alpha expSig pv]
    exact Iff.rfl
  · intro h
    have hp := pValueCells_none pv (tableCounts outcome exposure).1
      (tableCounts outcome exposure).2.1 (tableCounts outcome exposure).2.2.1
      (tableCounts outcome exposure).2.2.2 h
    refine ⟨hp, ?_⟩
    show (_ && sigOkCells _ _ _ _ _ _ _) = false
    have hs : sigOkCells alpha expSig pv (tableCounts outcome exposure).1
        (tableCounts outcome exposure).2.1 (tableCounts outcome exposure).2.2.1
        (tableCounts outcome exposure).2.2.2 = false := by
      unfold sigOkCells
      rw [hp]
    rw [hs, Bool.and_false]

/-- Witness for C2 at a concrete input: outcome [1, 0, 1, 0] against
exposure [1, 1, 0, 0] gives the all-ones table, realized odds value 1,
relative error 1/2 within tolerance 3/5, p value 1/100 below alpha 1/20,
so the validation passes. -/
theorem c2_validate_odds_witness :
    (2 : ℚ) ≠ 0 ∧
    (validateOdds (3 / 5) (1 / 20) 2 true (fun _ _ _ _ => 1 / 100)
      [1, 0, 1, 0] [1, 1, 0, 0]).passed = true := by
  refine ⟨by norm_num, ?_⟩
  have h := (c2_validate_odds_pass_criterion (3 / 5) (1 / 20) 2 true
    (fun _ _ _ _ => 1 / 100) [1, 0, 1, 0] [1, 1, 0, 0] (by norm_num)).1
  rw [h]
  have hA : (validateOdds (3 / 5) (1 / 20) 2 true (fun _ _ _ _ => 1 / 100)
      [1, 0, 1, 0] [1, 1, 0, 0]).actualOr = actualOrCells 1 1 1 1 := rfl
  have hP : (validateOdds (3 / 5) (1 / 20) 2 true (fun _ _ _ _ => 1 / 100)
      [1, 0, 1, 0] [1, 1, 0, 0]).pValue
      = pValueCells (fun _ _ _ _ => 1 / 100) 1 1 1 1 := rfl
  constructor
  · refine ⟨1, ?_, by norm_num⟩
    rw [hA]
    norm_num [actualOrCells]
  · refine ⟨1 / 100, ?_, by norm_num⟩
    rw [hP]
    norm_num [pValueCells]

/-- Largest element of a list (np.max); none for the empty array, on
which numpy raises. -/
def listMaxQ (xs : List ℚ) : Option ℚ :=
  match xs with
  | [] => none
  | x :: rest => some (rest.foldl max x)

/-- Ascending sort of the data (np.sort inside np.percentile). -/
def sortedQ (xs : List ℚ) : List ℚ := xs.mergeSort fun x y => decide (x ≤ y)

/-- np.percentile with the default linear interpolation between order
statistics at position (n - 1) q / 100; none models the error numpy
raises for an empty array or a percentile outside [0, 100]. -/
def percentileQ (xs : List ℚ) (q : ℚ) : Option ℚ :=
  if xs.length = 0 ∨ q < 0 ∨ 100 < q then none
  else
    let s := sortedQ xs
    let pos : ℚ := ((xs.length : ℚ) - 1) * q / 100
    let aV := s.getD (⌊pos⌋).toNat 0
    let bV := s.getD ((⌊pos⌋).toNat + 1) aV
    some (aV + Int.fract pos * (bV - aV))

/-- Censoring-time array of SurvivalDataGenerator.generate_censoring. us
abstracts the unit uniform draw stream, np.random.uniform(0, h, n) being
h times a unit draw, and bs the binomial(1, 0.5) draws of the mixed type;
none models the errors numpy raises (unknown censoring type, maximum of
an empty array, percentile out of range). -/
def censTimes (survivalTime : List ℚ) (censoringRate : ℚ)
    (censoringType : String) (maxFollowup? : Option ℚ)
    (us : ℕ → ℚ) (bs : ℕ → Bool) : Option (List ℚ) :=
  let n := survivalTime.length
  if censoringType = "random" then
    Option.map (fun m => (List.range n).map fun i => 2 * m * us i)
      (match maxFollowup? with
       | some m => some m
       | none => Option.map (fun m => m * (3 / 2)) (listMaxQ survivalTime))
  else if censoringType = "administrative" then
    Option.map (fun m => List.replicate n m)
      (match maxFollowup? with
       | some m => some m
       | none => percentileQ survivalTime (100 * (1 - censoringRate)))
  else if censoringType = "mixed" then
    Option.map (fun m => (List.range n).map fun i => if bs i then 2 * m * us i else m)
      (match maxFollowup? with
       | some m => some m
       | none => Option.map (fun m => m * (6 / 5)) (listMaxQ survivalTime))
  else none

/-- SurvivalDataGenerator.generate_censoring: the observed time is the
elementwise minimum of the survival and censoring times, and the event
flag is 1 when the survival time is within the censoring time, else 0. -/
def generateCensoring (survivalTime : List ℚ) (censoringRate : ℚ)
    (censoringType : String) (maxFollowup? : Option ℚ)
    (us : ℕ → ℚ) (bs : ℕ → Bool) : Option (List ℚ × List ℕ) :=
  Option.map (fun ct =>
      (List.zipWith min survivalTime ct,
       List.zipWith (fun t c => if t ≤ c then 1 else 0) survivalTime ct))
    (censTimes survivalTime censoringRate censoringType maxFollowup? us bs)

/-- foldl max preserves non-negativity of the accumulator. -/
lemma foldl_max_nonneg (l : List ℚ) : ∀ acc : ℚ, 0 ≤ acc → 0 ≤ l.foldl max acc := by
  induction l with
  | nil => intro acc h; simpa using h
  | cons y ys ih =>
    intro acc h
    simp only [List.foldl_cons]
    exact ih (max acc y) (le_trans h (le_max_left acc y))

/-- np.max of a non-negative array is non-negative. -/
lemma listMaxQ_nonneg (xs : List ℚ) (m : ℚ) (h : listMaxQ xs = some m)
    (hall : ∀ x ∈ xs, 0 ≤ x) : 0 ≤ m := by
  cases xs with
  | nil => simp [listMaxQ] at h
  | cons x rest =>
    have hx : 0 ≤ x := hall x (by simp)
    obtain rfl : rest.foldl max x = m := by simpa [listMaxQ] using h
    exact foldl_max_nonneg rest x hx

/-- getD with a non-negative default over a non-negative list. -/
lemma getD_nonneg (l : List ℚ) (i : ℕ) (d : ℚ)
    (hall : ∀ x ∈ l, 0 ≤ x) (hd : 0 ≤ d) : 0 ≤ l.getD i d := by
  rcases h : l[i]? with _ | x
  · simpa [List.getD, h] using hd
  · have hm : x ∈ l := List.getElem?_mem h
    simpa [List.getD, h] using hall x hm

/-- np.percentile of a non-negative array is non-negative: the result is
a convex combination of two entries of the sorted array. -/
lemma percentileQ_nonneg (xs : List ℚ) (q m : ℚ) (h : percentileQ xs q = some m)
    (hall : ∀ x ∈ xs, 0 ≤ x) : 0 ≤ m := by
  have hs : ∀ x ∈ sortedQ xs, 0 ≤ x := by
    intro x hx
    exact hall x (List.mem_mergeSort.mp hx)
  have hgd : ∀ (i : ℕ) (d : ℚ), 0 ≤ d → 0 ≤ (sortedQ xs).getD i d :=
    fun i d hd => getD_nonneg (sortedQ xs) i d hs hd
  unfold percentileQ at h
  split_ifs at h with hc
  have ha : 0 ≤ (sortedQ xs).getD (⌊((xs.length : ℚ) - 1) * q / 100⌋).toNat 0 :=
    hgd _ _ le_rfl
  have hb : 0 ≤ (sortedQ xs).getD ((⌊((xs.length : ℚ) - 1) * q / 100⌋).toNat + 1)
      ((sortedQ xs).getD (⌊((xs.length : ℚ) - 1) * q / 100⌋).toNat 0) :=
    hgd _ _ ha
  have hf0 : 0 ≤ Int.fract (((xs.length : ℚ) - 1) * q / 100) :=
    Int.fract_nonneg _
  have hf1 : Int.fract (((xs.length : ℚ) - 1) * q / 100) < 1 :=
    Int.fract_lt_one _
  have hm2 : (sortedQ xs).getD (⌊((xs.length : ℚ) - 1) * q / 100⌋).toNat 0
      + Int.fract (((xs.length : ℚ) - 1) * q / 100)
        * ((sortedQ xs).getD ((⌊((xs.length : ℚ) - 1) * q / 100⌋).toNat + 1)
            ((sortedQ xs).getD (⌊((xs.length : ℚ) - 1) * q / 100⌋).toNat 0)
          - (sortedQ xs).getD (⌊((xs.length : ℚ) - 1) * q / 100⌋).toNat 0) = m :=
    Option.some_inj.mp h
  rw [← hm2]
  nlinarith [mul_nonneg hf0 hb,
    mul_nonneg (sub_nonneg.mpr (le_of_lt hf1)) ha]

/-- Every censoring time produced by censTimes is non-negative, provided
the survival times, the uniform draws and any supplied maximum follow-up
are non-negative. -/
lemma censTimes_nonneg (survivalTime : List ℚ) (censoringRate : ℚ)
    (censoringType : String) (maxFollowup? : Option ℚ)
    (us : ℕ → ℚ) (bs : ℕ → Bool) (ct : List ℚ)
    (hct : censTimes survivalTime censoringRate censoringType maxFollowup? us bs = some ct)
    (hsurv : ∀ t ∈ survivalTime, 0 ≤ t) (hus : ∀ i, 0 ≤ us i)
    (hmf : ∀ m, maxFollowup? = some m → 0 ≤ m) :
    ∀ c ∈ ct, 0 ≤ c := by
  simp only [censTimes] at hct
  split_ifs at hct with h1 h2 h3
  · obtain ⟨m, hm, rfl⟩ := Option.map_eq_some'.mp hct
    have hm0 : 0 ≤ m := by
      cases hmf? : maxFollowup? with
      | some m0 =>
        have h0 : 0 ≤ m0 := hmf m0 hmf?
        rw [hmf?] at hm
        have he : m0 = m := Option.some_inj.mp hm
        rwa [he] at h0
      | none =>
        rw [hmf?] at hm
        obtain ⟨m1, hm1, rfl⟩ := Option.map_eq_some'.mp hm
        have := listMaxQ_nonneg survivalTime m1 hm1 hsurv
        positivity
    intro c hc
    obtain ⟨i, _, rfl⟩ := List.mem_map.mp hc
    have := hus i
    positivity
  · obtain ⟨m, hm, rfl⟩ := Option.map_eq_some'.mp hct
    have hm0 : 0 ≤ m := by
      cases hmf? : maxFollowup? with
      | some m0 =>
        have h0 : 0 ≤ m0 := hmf m0 hmf?
        rw [hmf?] at hm
        have he : m0 = m := Option.some_inj.mp hm
        rwa [he] at h0
      | none =>
        rw [hmf?] at hm
        exact percentileQ_nonneg survivalTime _ m hm hsurv
    intro c hc
    obtain rfl := List.eq_of_mem_replicate hc
    exact hm0
  · obtain ⟨m, hm, rfl⟩ := Option.map_eq_some'.mp hct
    have hm0 : 0 ≤ m := by
      cases hmf? : maxFollowup? with
      | some m0 =>
        have h0 : 0 ≤ m0 := hmf m0 hmf?
        rw [hmf?] at hm
        have he : m0 = m := Option.some_inj.mp hm
        rwa [he] at h0
      | none =>
        rw [hmf?] at hm
        obtain ⟨m1, hm1, rfl⟩ := Option.map_eq_some'.mp hm
        have := listMaxQ_nonneg survivalTime m1 hm1 hsurv
        positivity
    intro c hc
    obtain ⟨i, _, rfl⟩ := List.mem_map.mp hc
    have := hus i
    by_cases hbi : bs i
    · simp only [hbi, if_true]
      positivity
    · simp only [hbi, if_false]
      exact hm0

/-- Elementwise minimum of two non-negative lists is non-negative. -/
lemma zipWith_min_nonneg : ∀ (as bs : List ℚ), (∀ a ∈ as, 0 ≤ a) →
    (∀ b ∈ bs, 0 ≤ b) → ∀ x ∈ List.zipWith min as bs, 0 ≤ x := by
  intro as
  induction as with
  | nil => intro bs _ _ x hx; simp at hx
  | cons a as ih =>
    intro bs ha hb x hx
    cases bs with
    | nil => simp at hx
    | cons b bs =>
      rw [List.zipWith_cons_cons] at hx
      rcases List.mem_cons.mp hx with rfl | hx
      · exact le_min (ha a (by simp)) (hb b (by simp))
      · exact ih bs (fun y hy => ha y (List.mem_cons_of_mem a hy))
          (fun y hy => hb y (List.mem_cons_of_mem b hy)) x hx

/-- Elementwise minimum against a replicated bound stays below the bound. -/
lemma zipWith_min_replicate_le (m : ℚ) : ∀ (as : List ℚ) (n : ℕ),
    ∀ x ∈ List.zipWith min as (List.replicate n m), x ≤ m := by
  intro as
  induction as with
  | nil => intro n x hx; simp at hx
  | cons a as ih =>
    intro n x hx
    cases n with
    | zero => simp at hx
    | succ k =>
      rw [List.replicate_succ, List.zipWith_cons_cons] at hx
      rcases List.mem_cons.mp hx with rfl | hx
      · exact min_le_right a m
      · exact ih k x hx

/-- C5 counterexample: on the non-negative survival array [1],
administrative censoring with the caller-supplied max_followup -1
produces the observed time -1, which is negative, so observed times are
not non-negative on every call. -/
theorem c5_negative_followup_counterexample :
    generateCensoring [1] (1 / 5) "administrative" (some (-1))
        (fun _ => 0) (fun _ => true) = some ([-1], [0])
      ∧ ¬ (0 : ℚ) ≤ -1 := by
  constructor
  · have hct : censTimes [1] (1 / 5) "administrative" (some (-1))
        (fun _ => 0) (fun _ => true) = some [-1] := rfl
    rw [generateCensoring, hct]
    norm_num [List.zipWith_cons_cons, min_def]
  · norm_num

/-- C5 amended: on a non-negative survival array, whenever
generate_censoring returns (rather than raising), the observed time is
the elementwise minimum of the survival and censoring times, the event
flag is 1 exactly on true events (survival within censoring time) and 0
on right-censored records, the observed times are non-negative provided
any caller-supplied max_followup is non-negative, and under
administrative censoring with max_followup given every observed time is
at most that cutoff. -/
theorem c5_censoring_invariants (survivalTime : List ℚ) (censoringRate : ℚ)
    (censoringType : String) (maxFollowup? : Option ℚ)
    (us : ℕ → ℚ) (bs : ℕ → Bool) (ct obs : List ℚ) (ev : List ℕ)
    (hsurv : ∀ t ∈ survivalTime, 0 ≤ t)
    (hus : ∀ i, 0 ≤ us i)
    (hmf : ∀ m, maxFollowup? = some m → 0 ≤ m)
    (hct : censTimes survivalTime censoringRate censoringType maxFollowup? us bs
      = some ct)
    (hout : generateCensoring survivalTime censoringRate censoringType
      maxFollowup? us bs = some (obs, ev)) :
    obs = List.zipWith min survivalTime ct
    ∧ ev = List.zipWith (fun t c => if t ≤ c then 1 else 0) survivalTime ct
    ∧ (∀ x ∈ obs, 0 ≤ x)
    ∧ ∀ m, censoringType = "administrative" → maxFollowup? = some m →
        ∀ x ∈ obs, x ≤ m := by
  rw [generateCensoring, hct, Option.map_some'] at hout
  have hpair : (List.zipWith min survivalTime ct,
      List.zipWith (fun t c => if t ≤ c then (1 : ℕ) else 0) survivalTime ct)
      = (obs, ev) := Option.some_inj.mp hout
  have ho : obs = List.zipWith min survivalTime ct :=
    (congrArg Prod.fst hpair).symm
  have he : ev = List.zipWith (fun t c => if t ≤ c then (1 : ℕ) else 0)
      survivalTime ct :=
    (congrArg Prod.snd hpair).symm
  refine ⟨ho, he, ?_, ?_⟩
  · rw [ho]
    exact zipWith_min_nonneg survivalTime ct hsurv
      (censTimes_nonneg survivalTime censoringRate censoringType maxFollowup?
        us bs ct hct hsurv hus hmf)
  · intro m hty hm x hx
    subst hty
    subst hm
    have hrep : ct = List.replicate survivalTime.length m := by
      unfold censTimes at hct
      rw [if_neg (by decide), if_pos rfl] at hct
      have := Option.some_inj.mp hct
      exact this.symm
    rw [ho, hrep] at hx
    exact zipWith_min_replicate_le m survivalTime _ x hx

/-- Witness for C5 amended at a concrete input: survival times [1, 3]
under administrative censoring at cutoff 2 give observed times [1, 2]
and events [1, 0]; the observed times are non-negative and at most 2. -/
theorem c5_censoring_witness :
    generateCensoring [1, 3] (1 / 5) "administrative" (some 2)
        (fun _ => 0) (fun _ => false) = some ([1, 2], [1, 0])
      ∧ (∀ x ∈ [(1 : ℚ), 2], 0 ≤ x) ∧ ∀ x ∈ [(1 : ℚ), 2], x ≤ 2 := by
  have hct : censTimes [1, 3] (1 / 5) "administrative" (some 2)
      (fun _ => 0) (fun _ => false) = some [2, 2] := rfl
  have hout : generateCensoring [1, 3] (1 / 5) "administrative" (some 2)
      (fun _ => 0) (fun _ => false) = some ([1, 2], [1, 0]) := by
    rw [generateCensoring, hct]
    norm_num [List.zipWith_cons_cons, min_def]
  have h := c5_censoring_invariants [1, 3] (1 / 5) "administrative" (some 2)
    (fun _ => 0) (fun _ => false) [2, 2] [1, 2] [1, 0]
    (by norm_num) (fun _ => le_refl 0)
    (by
      intro m hm
      obtain rfl : (2 : ℚ) = m := Option.some_inj.mp hm
      norm_num)
    hct hout
  exact ⟨hout, h.2.2.1, fun x hx => h.2.2.2 2 rfl rfl x hx⟩

/-- Head unfolding of the group == v selection. -/
lemma selGroup_cons (x g v : ℚ) (xs gs : List ℚ) :
    selGroup (x :: xs) (g :: gs) v
      = if g = v then x :: selGroup xs gs v else selGroup xs gs v := by
  unfold selGroup
  rw [List.zip_cons_cons, List.filterMap_cons]
  split_ifs with h <;> rfl

/-- Head unfolding of the group != v selection. -/
lemma selNotGroup_cons (x g v : ℚ) (xs gs : List ℚ) :
    selNotGroup (x :: xs) (g :: gs) v
      = if g = v then selNotGroup xs gs v else x :: selNotGroup xs gs v := by
  unfold selNotGroup
  rw [List.zip_cons_cons, List.filterMap_cons]
  split_ifs with h <;> rfl

/-- On a 0/1 group array the complement of group == 1 is group == 0. -/
lemma selNotGroup_one_eq_selGroup_zero : ∀ (data group : List ℚ),
    (∀ g ∈ group, g = 0 ∨ g = 1) →
    selNotGroup data group 1 = selGroup data group 0 := by
  intro data
  induction data with
  | nil => intro group _; rfl
  | cons x xs ih =>
    intro group hg
    cases group with
    | nil => rfl
    | cons g gs =>
      have hgs : ∀ y ∈ gs, y = 0 ∨ y = 1 :=
        fun y hy => hg y (List.mem_cons_of_mem g hy)
      rw [selNotGroup_cons, selGroup_cons]
      rcases hg g (by simp) with h | h
      · subst h
        rw [if_neg (by norm_num : (0 : ℚ) ≠ 1), if_pos rfl, ih gs hgs]
      · subst h
        rw [if_pos rfl, if_neg (by norm_num : (1 : ℚ) ≠ 0)]
        exact ih gs hgs

/-- Shifting the group-1 entries shifts exactly the group == 1 selection. -/
lemma sel1_update (δ : ℚ) : ∀ (data group : List ℚ),
    data.length = group.length →
    selGroup (List.zipWith (fun x g => if g = 1 then x + δ else x) data group)
        group 1
      = (selGroup data group 1).map fun x => x + δ := by
  intro data
  induction data with
  | nil =>
    intro group h
    cases group with
    | nil => rfl
    | cons g gs => simp at h
  | cons x xs ih =>
    intro group h
    cases group with
    | nil => simp at h
    | cons g gs =>
      have h' : xs.length = gs.length := by simpa using h
      rw [List.zipWith_cons_cons]
      by_cases hg1 : g = 1
      · subst hg1
        rw [if_pos rfl, selGroup_cons, selGroup_cons, if_pos rfl, if_pos rfl,
          List.map_cons, ih gs h']
      · rw [if_neg hg1, selGroup_cons, selGroup_cons, if_neg hg1, if_neg hg1]
        exact ih gs h'

/-- Shifting the group-1 entries leaves the group == 0 selection alone. -/
lemma sel0_update (δ : ℚ) : ∀ (data group : List ℚ),
    data.length = group.length →
    selGroup (List.zipWith (fun x g => if g = 1 then x + δ else x) data group)
        group 0
      = selGroup data group 0 := by
  intro data
  induction data with
  | nil =>
    intro group h
    cases group with
    | nil => rfl
    | cons g gs => simp at h
  | cons x xs ih =>
    intro group h
    cases group with
    | nil => simp at h
    | cons g gs =>
      have h' : xs.length = gs.length := by simpa using h
      rw [List.zipWith_cons_cons]
      by_cases hg1 : g = 1
      · subst hg1
        rw [if_pos rfl, selGroup_cons, selGroup_cons,
          if_neg (by norm_num : (1 : ℚ) ≠ 0), if_neg (by norm_num : (1 : ℚ) ≠ 0)]
        exact ih gs h'
      · rw [if_neg hg1, selGroup_cons, selGroup_cons]
        by_cases hg0 : g = 0
        · rw [if_pos hg0, if_pos hg0, ih gs h']
        · rw [if_neg hg0, if_neg hg0]
          exact ih gs h'

/-- Sum after a constant shift. -/
lemma sum_map_add_const (l : List ℚ) (δ : ℚ) :
    (l.map fun x => x + δ).sum = l.sum + l.length * δ := by
  induction l with
  | nil => simp
  | cons a as ih =>
    simp only [List.map_cons, List.sum_cons, List.length_cons, ih]
    push_cast
    ring

/-- Mean after a constant shift, for a nonempty list. -/
lemma qmean_map_add (l : List ℚ) (δ : ℚ) (h : l ≠ []) :
    qmean (l.map fun x => x + δ) = qmean l + δ := by
  have hn : (l.length : ℚ) ≠ 0 := by
    simpa using List.length_pos.mpr h |>.ne'
  unfold qmean
  rw [List.length_map, sum_map_add_const]
  field_simp
  ring

/-- Sample variance is invariant under a constant shift. -/
lemma sampleVar_map_add (l : List ℚ) (δ : ℚ) :
    sampleVar (l.map fun x => x + δ) = sampleVar l := by
  unfold sampleVar
  rw [List.length_map]
  split_ifs with h
  · rfl
  · have hne : l ≠ [] := by
      intro h0
      subst h0
      simp at h
    rw [qmean_map_add l δ hne, List.map_map]
    have hsum : List.map ((fun x => (x - (qmean l + δ)) ^ 2) ∘ fun x => x + δ) l
        = List.map (fun x => (x - qmean l) ^ 2) l :=
      List.map_congr_left fun a _ => by
        simp only [Function.comp_apply]
        ring
    rw [hsum]

/-- Evaluation of _calculate_cohens_d once both sample variances exist. -/
lemma calculateCohensD_some (rsqrt : ℚ → ℚ) (data group : List ℚ) (v0 v1 : ℚ)
    (h0 : sampleVar (selGroup data group 0) = some v0)
    (h1 : sampleVar (selGroup data group 1) = some v1) :
    calculateCohensD rsqrt data group
      = if rsqrt (((((selGroup data group 0).length : ℚ) - 1) * v0
            + (((selGroup data group 1).length : ℚ) - 1) * v1)
            / (((selGroup data group 0).length : ℚ)
              + ((selGroup data group 1).length : ℚ) - 2)) = 0
        then none
        else some ((qmean (selGroup data group 1) - qmean (selGroup data group 0))
          / rsqrt (((((selGroup data group 0).length : ℚ) - 1) * v0
            + (((selGroup data group 1).length : ℚ) - 1) * v1)
            / (((selGroup data group 0).length : ℚ)
              + ((selGroup data group 1).length : ℚ) - 2))) := by
  simp only [calculateCohensD]
  rw [h0, h1]

/-- Nonzero-case evaluation of the adjustment step. -/
lemma adjustStep_of_ne (data group : List ℚ) (t c : ℚ) (hc : c ≠ 0) :
    adjustStep data group t c
      = List.zipWith (fun x g => if g = 1 then
            x - (qmean (selGroup data group 1) - qmean (selNotGroup data group 1))
              + (qmean (selGroup data group 1)
                - qmean (selNotGroup data group 1)) * (t / c)
          else x) data group := by
  unfold adjustStep
  rw [if_neg hc]

/-- Cohen's d is undefined when the group-0 sample variance is. -/
lemma calculateCohensD_none0 (rsqrt : ℚ → ℚ) (data group : List ℚ)
    (h : sampleVar (selGroup data group 0) = none) :
    calculateCohensD rsqrt data group = none := by
  rcases h1 : sampleVar (selGroup data group 1) with _ | v1 <;>
    simp only [calculateCohensD, h, h1]

/-- Cohen's d is undefined when the group-1 sample variance is. -/
lemma calculateCohensD_none1 (rsqrt : ℚ → ℚ) (data group : List ℚ)
    (h : sampleVar (selGroup data group 1) = none) :
    calculateCohensD rsqrt data group = none := by
  rcases h0 : sampleVar (selGroup data group 0) with _ | v0 <;>
    simp only [calculateCohensD, h0, h]

/-- C10: when adjust_effect_size is called with the current effect size
omitted, the computed Cohen's d is a nonzero c and the group array is
0/1-valued and aligned with the data, the returned array's Cohen's d is
exactly the target: the adjustment shifts every group-1 value by one
constant, so both within-group sample variances and hence the pooled
standard deviation are unchanged, while the between-group mean difference
is scaled by target / c. -/
theorem c10_adjusted_cohens_d_is_target (rsqrt : ℚ → ℚ) (data group : List ℚ)
    (targetD c : ℚ) (out : List ℚ)
    (hlen : data.length = group.length)
    (hg : ∀ g ∈ group, g = 0 ∨ g = 1)
    (hc : calculateCohensD rsqrt data group = some c) (hc0 : c ≠ 0)
    (hout : adjustEffectSize rsqrt data group targetD none = some out) :
    calculateCohensD rsqrt out group = some targetD := by
  rcases h0 : sampleVar (selGroup data group 0) with _ | v0
  · rw [calculateCohensD_none0 rsqrt data group h0] at hc
    exact Option.noConfusion hc
  rcases h1 : sampleVar (selGroup data group 1) with _ | v1
  · rw [calculateCohensD_none1 rsqrt data group h1] at hc
    exact Option.noConfusion hc
  have hcE := hc
  rw [calculateCohensD_some rsqrt data group v0 v1 h0 h1] at hcE
  split_ifs at hcE with hps0
  have hM : qmean (selGroup data group 1) - qmean (selGroup data group 0)
      = c * rsqrt (((((selGroup data group 0).length : ℚ) - 1) * v0
          + (((selGroup data group 1).length : ℚ) - 1) * v1)
          / (((selGroup data group 0).length : ℚ)
            + ((selGroup data group 1).length : ℚ) - 2)) := by
    have hdiv := Option.some_inj.mp hcE
    rw [div_eq_iff hps0] at hdiv
    exact hdiv
  have hstep : out = adjustStep data group targetD c := by
    simp only [adjustEffectSize] at hout
    rw [hc, Option.map_some'] at hout
    exact (Option.some_inj.mp hout).symm
  have hfun : (fun (x g : ℚ) => if g = 1 then
        x - (qmean (selGroup data group 1) - qmean (selGroup data group 0))
          + (qmean (selGroup data group 1) - qmean (selGroup data group 0))
            * (targetD / c)
      else x)
      = fun (x g : ℚ) => if g = 1 then
        x + ((qmean (selGroup data group 1) - qmean (selGroup data group 0))
          * (targetD / c)
          - (qmean (selGroup data group 1) - qmean (selGroup data group 0)))
      else x := by
    funext x g
    split_ifs <;> ring
  have hout2 : out = List.zipWith (fun x g => if g = 1 then
      x + ((qmean (selGroup data group 1) - qmean (selGroup data group 0))
        * (targetD / c)
        - (qmean (selGroup data group 1) - qmean (selGroup data group 0)))
    else x) data group := by
    rw [hstep, adjustStep_of_ne data group targetD c hc0,
      selNotGroup_one_eq_selGroup_zero data group hg, hfun]
  have hsel1 : selGroup out group 1
      = (selGroup data group 1).map fun x =>
          x + ((qmean (selGroup data group 1) - qmean (selGroup data group 0))
            * (targetD / c)
            - (qmean (selGroup data group 1) - qmean (selGroup data group 0))) := by
    rw [hout2]
    exact sel1_update _ data group hlen
  have hsel0 : selGroup out group 0 = selGroup data group 0 := by
    rw [hout2]
    exact sel0_update _ data group hlen
  have h0o : sampleVar (selGroup out group 0) = some v0 := by
    rw [hsel0]
    exact h0
  have h1o : sampleVar (selGroup out group 1) = some v1 := by
    rw [hsel1, sampleVar_map_add]
    exact h1
  have hne1 : selGroup data group 1 ≠ [] := by
    intro he
    rw [he] at h1
    simp [sampleVar] at h1
  rw [calculateCohensD_some rsqrt out group v0 v1 h0o h1o, hsel0, hsel1,
    List.length_map, if_neg hps0, qmean_map_add _ _ hne1]
  congr 1
  rw [div_eq_iff hps0]
  have hring : qmean (selGroup data group 1)
      + ((qmean (selGroup data group 1) - qmean (selGroup data group 0))
        * (targetD / c)
        - (qmean (selGroup data group 1) - qmean (selGroup data group 0)))
      - qmean (selGroup data group 0)
      = (qmean (selGroup data group 1) - qmean (selGroup data group 0))
        * (targetD / c) := by
    ring
  rw [hring, hM]
  field_simp
  ring

/-- Witness for C10 at a concrete input: data [0, 1, 2, 1, 2, 3] with
groups [0, 0, 0, 1, 1, 1] has pooled variance 1 and Cohen's d 1; asking
for target 2 with the current effect size omitted yields an array whose
Cohen's d is exactly 2. -/
theorem c10_adjusted_cohens_d_witness :
    calculateCohensD id [0, 1, 2, 1, 2, 3] [0, 0, 0, 1, 1, 1] = some 1
    ∧ (1 : ℚ) ≠ 0
    ∧ calculateCohensD id
        (adjustStep [0, 1, 2, 1, 2, 3] [0, 0, 0, 1, 1, 1] 2 1)
        [0, 0, 0, 1, 1, 1] = some 2 := by
  have hs0 : selGroup [(0 : ℚ), 1, 2, 1, 2, 3] [0, 0, 0, 1, 1, 1] 0 = [0, 1, 2] := by
    norm_num [selGroup, List.zip_cons_cons, List.filterMap_cons]
  have hs1 : selGroup [(0 : ℚ), 1, 2, 1, 2, 3] [0, 0, 0, 1, 1, 1] 1 = [1, 2, 3] := by
    norm_num [selGroup, List.zip_cons_cons, List.filterMap_cons]
  have hv0 : sampleVar [(0 : ℚ), 1, 2] = some 1 := by
    norm_num [sampleVar, qmean]
  have hv1 : sampleVar [(1 : ℚ), 2, 3] = some 1 := by
    norm_num [sampleVar, qmean]
  have h0 : sampleVar (selGroup [(0 : ℚ), 1, 2, 1, 2, 3] [0, 0, 0, 1, 1, 1] 0)
      = some 1 := by
    rw [hs0]
    exact hv0
  have h1 : sampleVar (selGroup [(0 : ℚ), 1, 2, 1, 2, 3] [0, 0, 0, 1, 1, 1] 1)
      = some 1 := by
    rw [hs1]
    exact hv1
  have hc : calculateCohensD id [0, 1, 2, 1, 2, 3] [0, 0, 0, 1, 1, 1] = some 1 := by
    rw [calculateCohensD_some id _ _ 1 1 h0 h1, hs0, hs1]
    norm_num [qmean]
  have hgmem : ∀ g ∈ [(0 : ℚ), 0, 0, 1, 1, 1], g = 0 ∨ g = 1 := by
    intro g hgm
    simp only [List.mem_cons, List.not_mem_nil, or_false] at hgm
    rcases hgm with rfl | rfl | rfl | rfl | rfl | rfl <;> norm_num
  have hout : adjustEffectSize id [0, 1, 2, 1, 2, 3] [0, 0, 0, 1, 1, 1] 2 none
      = some (adjustStep [0, 1, 2, 1, 2, 3] [0, 0, 0, 1, 1, 1] 2 1) := by
    simp only [adjustEffectSize]
    rw [hc, Option.map_some']
  have h := c10_adjusted_cohens_d_is_target id [0, 1, 2, 1, 2, 3]
    [0, 0, 0, 1, 1, 1] 2 1 (adjustStep [0, 1, 2, 1, 2, 3] [0, 0, 0, 1, 1, 1] 2 1)
    rfl hgmem hc (by norm_num) hout
  exact ⟨hc, by norm_num, h⟩
